import Mathlib

/-!
Verification of the ChainLocks handler (llmq/quorums_chainlocks.cpp) against
its specification. The handler state machine is embedded shallowly: machine
integers become Int/Nat, uint256 words become Nat, the external collaborators
(signer, chain engine, clocks, peer layer) become explicit parameters, and a
failed assert becomes an absorbing aborted flag. Only the cpp file is part of
the shown source; constants and digests that live in the missing header are
modelled from the spec and marked as such.
-/

namespace ChainLocks

/-- Words of 256 bits (uint256) are modeled as natural numbers; the all-zero
hash uint256() is the number 0. -/
abbrev Hash := Nat

/-- CChainLockSig: nHeight (32-bit signed, -1 sentinel meaning none),
blockHash (256-bit) and the opaque BLS threshold signature, modeled as an
opaque token. Two CLSIGs are equal iff all three fields match. -/
structure CChainLockSig where
  nHeight : Int
  blockHash : Hash
  sig : Nat
deriving DecidableEq

/-- Modelled from the spec: the default-constructed CChainLockSig (the
constructor lives in the missing header); height -1 sentinel, null block
hash, null signature. -/
def defaultCLSig : CChainLockSig := ⟨-1, 0, 0⟩

/-- A block-index entry (CBlockIndex) as the handler reads it: height, block
hash and the hash of the predecessor (none for genesis). -/
structure BlockEntry where
  nHeight : Int
  hash : Hash
  prev : Option Hash
deriving DecidableEq

/-- External collaborators of the handler, per spec section 6: clocks
(GetTimeMillis and GetAdjustedTime), the masternode mode flag, the sync
state, the active-chain tip, block-index lookup by hash, the ancestor query
of the chain engine, and GetTransaction (none when the transaction vanished,
some none when it sits in the mempool, some (some h) when confirmed in block
h). All are read-only for the handler. -/
structure Env where
  nowMs : Int
  adjustedTime : Int
  fMasternodeMode : Bool
  isBlockchainSynced : Bool
  tip : Option BlockEntry
  findBlock : Hash → Option BlockEntry
  getAncestor : BlockEntry → Int → Option BlockEntry
  getTransaction : Hash → Option (Option Hash)

/-- The members of CChainLocksHandler that the shown source reads or writes
(all protected by the handler mutex cs in the source; the scheduler runs the
handler bodies serially, so the embedding is a sequential state machine).
The isSporkActive and isEnforced flags are never written in the shown code
(they belong to the external feature-gate); aborted models a failed assert,
which terminates the process. -/
structure HandlerState where
  seenChainLocks : List (Hash × Int)
  bestChainLock : CChainLockSig
  bestChainLockHash : Hash
  bestChainLockWithKnownBlock : CChainLockSig
  bestChainLockBlockIndex : Option BlockEntry
  lastNotifyChainLockBlockIndex : Option BlockEntry
  lastSignedHeight : Int
  lastSignedRequestId : Hash
  lastSignedMsgHash : Hash
  tryLockChainTipScheduled : Bool
  txFirstSeenTime : List (Hash × Int)
  blockTxs : List (Hash × List Hash)
  lastCleanupTime : Int
  isSporkActive : Bool
  isEnforced : Bool
  aborted : Bool
deriving DecidableEq

/-- Initial handler state: empty maps, sentinel best lock, null best-lock
hash, null back-references. The signer fields start at their sentinels
(modelled from the spec: no in-flight signing proposal initially). The two
feature-gate flags are external inputs and therefore parameters. -/
def chainLocksInit (spork enf : Bool) : HandlerState where
  seenChainLocks := []
  bestChainLock := defaultCLSig
  bestChainLockHash := 0
  bestChainLockWithKnownBlock := defaultCLSig
  bestChainLockBlockIndex := none
  lastNotifyChainLockBlockIndex := none
  lastSignedHeight := -1
  lastSignedRequestId := 0
  lastSignedMsgHash := 0
  tryLockChainTipScheduled := false
  txFirstSeenTime := []
  blockTxs := []
  lastCleanupTime := 0
  isSporkActive := spork
  isEnforced := enf
  aborted := false

/-- Lookup in an association list keyed by 256-bit words; models find on the
unordered maps of the handler. -/
def assocFind {β : Type} : List (Hash × β) → Hash → Option β
  | [], _ => none
  | p :: rest, k => if p.1 = k then some p.2 else assocFind rest k

/-- Injective code of a signed height into the naturals, used by the modeled
digests below. -/
def intCode (i : Int) : Nat :=
  if 0 ≤ i then 2 * i.toNat else 2 * (-i).toNat + 1

/-- Modelled from the spec: SerializeHash of a CChainLockSig, the canonical
serialization hash (a double-SHA256 over the canonical wire encoding; the
serializer and hasher live outside the shown source). The model realizes it
as an injective encoding that never yields the all-zero word 0, reflecting
that the digest of a concrete encoding is never the uint256 null sentinel. -/
def serializeHashCLSig (c : CChainLockSig) : Hash :=
  Nat.pair (intCode c.nHeight) (Nat.pair c.blockHash c.sig) + 1

/-- Modelled from the spec: the request id, the deterministic digest of the
pair of the string constant CLSIG_REQUESTID_PREFIX and the height; modeled
as an injective nonzero encoding. -/
def clsigRequestId (nHeight : Int) : Hash :=
  Nat.pair (intCode nHeight) 0 + 1

/-- Modelled from the spec: CLEANUP_INTERVAL = 30 s in milliseconds (the
header defining the constant is not part of the shown source). -/
def CLEANUP_INTERVAL : Int := 30000

/-- Modelled from the spec: CLEANUP_SEEN_TIMEOUT = 1 hour in milliseconds
(the header defining the constant is not part of the shown source). -/
def CLEANUP_SEEN_TIMEOUT : Int := 3600000

/-- Modelled from the spec: WAIT_FOR_ISLOCK_TIMEOUT = 600 s (the header
defining the constant is not part of the shown source). -/
def WAIT_FOR_ISLOCK_TIMEOUT : Int := 600

/-- CChainLocksHandler::InternalHasChainLock, lines 524 to 542: false if
enforcement is disabled or no block-index back-reference; false above the
lock height; hash comparison at the lock height; otherwise compare with the
ancestor of the locked block at the queried height (false when the ancestor
query returns null). -/
def internalHasChainLock (env : Env) (s : HandlerState) (nHeight : Int)
    (blockHash : Hash) : Bool :=
  if s.isEnforced = false then false
  else
    match s.bestChainLockBlockIndex with
    | none => false
    | some t =>
      if t.nHeight < nHeight then false
      else if nHeight = t.nHeight then decide (blockHash = t.hash)
      else
        match env.getAncestor t nHeight with
        | none => false
        | some a => decide (a.hash = blockHash)

/-- CChainLocksHandler::InternalHasConflictingChainLock, lines 550 to 573:
as internalHasChainLock with the final equality negated; at heights strictly
below the lock height the source asserts that the ancestor exists, so a null
ancestor aborts the process, modeled as none. -/
def internalHasConflictingChainLock (env : Env) (s : HandlerState)
    (nHeight : Int) (blockHash : Hash) : Option Bool :=
  if s.isEnforced = false then some false
  else
    match s.bestChainLockBlockIndex with
    | none => some false
    | some t =>
      if t.nHeight < nHeight then some false
      else if nHeight = t.nHeight then some (decide (blockHash ≠ t.hash))
      else
        match env.getAncestor t nHeight with
        | none => none
        | some a => some (decide (a.hash ≠ blockHash))

/-- CChainLocksHandler::HasChainLock, lines 518 to 522: takes cs and calls
the internal variant. -/
def hasChainLock (env : Env) (s : HandlerState) (nHeight : Int)
    (blockHash : Hash) : Bool :=
  internalHasChainLock env s nHeight blockHash

/-- CChainLocksHandler::HasConflictingChainLock, lines 544 to 548: takes cs
and calls the internal variant. -/
def hasConflictingChainLock (env : Env) (s : HandlerState) (nHeight : Int)
    (blockHash : Hash) : Option Bool :=
  internalHasConflictingChainLock env s nHeight blockHash

/-- CChainLocksHandler::GetChainLockByHash, lines 65 to 76: returns false
unless the queried hash equals bestChainLockHash, else writes bestChainLock
into the out parameter and returns true. The out parameter is modeled by
Option: none means the function returned false and left ret unchanged. -/
def getChainLockByHash (s : HandlerState) (hash : Hash) :
    Option CChainLockSig :=
  if hash ≠ s.bestChainLockHash then none else some s.bestChainLock

/-- CChainLocksHandler::CheckActiveState, lines 209 to 217: clears the
best-lock registry to its initial sentinel values and nulls both block-index
back-references. In the shown source the feature-gate check is an open TODO,
so the reset runs unconditionally on every invocation. The seen-set, the
block-tx tracker and the signer fields are untouched. -/
def checkActiveState (s : HandlerState) : HandlerState :=
  { s with bestChainLockHash := 0
           bestChainLock := defaultCLSig
           bestChainLockWithKnownBlock := defaultCLSig
           bestChainLockBlockIndex := none
           lastNotifyChainLockBlockIndex := none }

/-- CChainLocksHandler::AcceptedBlockHeader, lines 168 to 188: when the new
entry carries the block hash of bestChainLock, bind the back-references,
unless its height disagrees with the CLSIG height (then log and skip). -/
def acceptedBlockHeader (entry : BlockEntry) (s : HandlerState) :
    HandlerState :=
  if entry.hash = s.bestChainLock.blockHash then
    if s.bestChainLock.nHeight ≠ entry.nHeight then s
    else
      { s with bestChainLockWithKnownBlock := s.bestChainLock
               bestChainLockBlockIndex := some entry }
  else s

/-- Exit points of ProcessNewChainLock, in source order: dedup return
(line 103), stale-height return (line 108), invalid-signature return
(line 120), aborted assert inside the conflict check, conflict return
(line 131), commit with unknown block (line 144), commit with block-height
mismatch (line 151), full commit (line 157). -/
inductive PncExit
  | dedup
  | stale
  | invalidSig
  | assertFail
  | conflict
  | committedNoBlock
  | committedBadHeight
  | committed
deriving DecidableEq

/-- An exit at which the assignment bestChainLock = clsig (line 135) has
executed. -/
def PncExit.isCommit : PncExit → Bool
  | .committedNoBlock => true
  | .committedBadHeight => true
  | .committed => true
  | _ => false

/-- Result of one ProcessNewChainLock call: the new handler state, the exit
point taken, whether VerifyRecoveredSig was invoked, whether RelayInv was
invoked, and the Misbehaving report sent to the peer layer, if any. -/
structure PncResult where
  state : HandlerState
  exit : PncExit
  verifyCalled : Bool
  relayed : Bool
  misbehaved : Option (Int × Nat)
deriving DecidableEq

/-- CChainLocksHandler::ProcessNewChainLock, lines 92 to 166. Stages in
source order: insert the hash into the seen-set and return on an existing
entry; return when the CLSIG height is not above the current best (with the
-1 sentinel meaning no best yet); call the external VerifyRecoveredSig
(outcome verifyOk), on failure reporting Misbehaving weight 10 when fromId
is not -1; reject a conflicting CLSIG; commit bestChainLockHash and
bestChainLock and relay the inventory; then bind the block-index
back-references when the block is known and its height matches. The
scheduled CheckActiveState plus EnforceBestChainLock run is a separate
handler operation. -/
def processNewChainLock (env : Env) (fromId : Int) (clsig : CChainLockSig)
    (hash : Hash) (verifyOk : Bool) (s : HandlerState) : PncResult :=
  if assocFind s.seenChainLocks hash ≠ none then
    ⟨s, .dedup, false, false, none⟩
  else
    let s1 := { s with seenChainLocks := (hash, env.nowMs) :: s.seenChainLocks }
    if s.bestChainLock.nHeight ≠ -1 ∧ clsig.nHeight ≤ s.bestChainLock.nHeight then
      ⟨s1, .stale, false, false, none⟩
    else
      if verifyOk = false then
        ⟨s1, .invalidSig, true, false,
          if fromId ≠ -1 then some (fromId, 10) else none⟩
      else
        match internalHasConflictingChainLock env s1 clsig.nHeight clsig.blockHash with
        | none => ⟨{ s1 with aborted := true }, .assertFail, true, false, none⟩
        | some true => ⟨s1, .conflict, true, false, none⟩
        | some false =>
          let s2 := { s1 with bestChainLockHash := hash, bestChainLock := clsig }
          match env.findBlock clsig.blockHash with
          | none => ⟨s2, .committedNoBlock, true, true, none⟩
          | some e =>
            if e.nHeight ≠ clsig.nHeight then
              ⟨s2, .committedBadHeight, true, true, none⟩
            else
              ⟨{ s2 with bestChainLockWithKnownBlock := clsig
                         bestChainLockBlockIndex := some e },
                .committed, true, true, none⟩

/-- CChainLocksHandler::IsTxSafeForMining, lines 370 to 388: true when the
feature-gate is off; else the age of the transaction (0 when never seen)
must reach WAIT_FOR_ISLOCK_TIMEOUT. -/
def isTxSafeForMining (s : HandlerState) (now : Int) (txid : Hash) : Bool :=
  if s.isSporkActive = false then true
  else
    let txAge : Int :=
      match assocFind s.txFirstSeenTime txid with
      | some t => now - t
      | none => 0
    if txAge < WAIT_FOR_ISLOCK_TIMEOUT then false else true

/-- The block-tx pass of Cleanup, lines 600 to 612: for each tracked block,
look the block up in the index (the source uses at, which throws on a miss,
so none aborts), drop locked blocks and erase their txids from
txFirstSeenTime, drop conflicting blocks, keep the rest. The registry fields
read by the two lock predicates are not written during the pass, so the
state parameter is fixed. -/
def cleanupBlockTxsGo (env : Env) (s : HandlerState) :
    List (Hash × List Hash) → List (Hash × Int) →
    Option (List (Hash × List Hash) × List (Hash × Int))
  | [], fs => some ([], fs)
  | e :: rest, fs =>
    match env.findBlock e.1 with
    | none => none
    | some pindex =>
      if internalHasChainLock env s pindex.nHeight pindex.hash then
        cleanupBlockTxsGo env s rest
          (fs.filter (fun q => decide (q.1 ∈ e.2) = false))
      else
        match internalHasConflictingChainLock env s pindex.nHeight pindex.hash with
        | none => none
        | some true => cleanupBlockTxsGo env s rest fs
        | some false =>
          match cleanupBlockTxsGo env s rest fs with
          | none => none
          | some (kept, fs2) => some (e :: kept, fs2)

/-- The first-seen pass of Cleanup, lines 613 to 630: drop entries whose
transaction vanished; keep mempool entries; for confirmed entries look up
the block (at throws on a miss, so none aborts), then drop the entry when
the block is on the active chain at depth at least 6. Dereferencing a null
active tip aborts. -/
def cleanupFirstSeenGo (env : Env) :
    List (Hash × Int) → Option (List (Hash × Int))
  | [] => some []
  | q :: rest =>
    match env.getTransaction q.1 with
    | none => cleanupFirstSeenGo env rest
    | some none =>
      match cleanupFirstSeenGo env rest with
      | none => none
      | some r => some (q :: r)
    | some (some hb) =>
      match env.findBlock hb with
      | none => none
      | some pindex =>
        match env.tip with
        | none => none
        | some tip =>
          if env.getAncestor tip pindex.nHeight = some pindex ∧
              6 ≤ tip.nHeight - pindex.nHeight then
            cleanupFirstSeenGo env rest
          else
            match cleanupFirstSeenGo env rest with
            | none => none
            | some r => some (q :: r)

/-- CChainLocksHandler::Cleanup, lines 575 to 633: return unless the
blockchain is synced and CLEANUP_INTERVAL has passed since the last run;
evict seen-set entries older than CLEANUP_SEEN_TIMEOUT; run the block-tx and
first-seen passes; stamp lastCleanupTime. -/
def cleanup (env : Env) (s : HandlerState) : HandlerState :=
  if env.isBlockchainSynced = false then s
  else if env.nowMs - s.lastCleanupTime < CLEANUP_INTERVAL then s
  else
    let seen2 := s.seenChainLocks.filter
      (fun p => decide (env.nowMs - p.2 < CLEANUP_SEEN_TIMEOUT))
    match cleanupBlockTxsGo env s s.blockTxs s.txFirstSeenTime with
    | none => { s with aborted := true }
    | some (blocks2, first2) =>
      match cleanupFirstSeenGo env first2 with
      | none => { s with aborted := true }
      | some first3 =>
        { s with seenChainLocks := seen2
                 blockTxs := blocks2
                 txFirstSeenTime := first3
                 lastCleanupTime := env.nowMs }

/-- Result of one TrySignChainTip run: the new handler state and, when the
tip was proposed for signing, the pair of request id and message hash handed
to the external AsyncSignIfMember. -/
structure SignAttempt where
  state : HandlerState
  asyncSign : Option (Hash × Hash)
deriving DecidableEq

/-- CChainLocksHandler::TrySignChainTip, lines 219 to 285: run Cleanup,
then return silently unless masternode mode, synced blockchain, a tip with a
predecessor (the source dereferences the tip before the null check, so a
null tip aborts), active feature-gate, a tip height different from
lastSignedHeight and above bestChainLock, and no conflicting chain lock at
the tip. On pass, compute the request id and message hash, re-check the
height filter, record lastSignedHeight, lastSignedRequestId and
lastSignedMsgHash, and invoke AsyncSignIfMember. Note that the shown source
consults neither blockTxs nor IsTxSafeForMining on this path. -/
def trySignChainTip (env : Env) (s0 : HandlerState) : SignAttempt :=
  let s := cleanup env s0
  if s.aborted then ⟨s, none⟩
  else if env.fMasternodeMode = false then ⟨s, none⟩
  else if env.isBlockchainSynced = false then ⟨s, none⟩
  else
    match env.tip with
    | none => ⟨{ s with aborted := true }, none⟩
    | some pindex =>
      if pindex.prev = none then ⟨s, none⟩
      else if s.isSporkActive = false then ⟨s, none⟩
      else if pindex.nHeight = s.lastSignedHeight then ⟨s, none⟩
      else if pindex.nHeight ≤ s.bestChainLock.nHeight then ⟨s, none⟩
      else
        match internalHasConflictingChainLock env s pindex.nHeight pindex.hash with
        | none => ⟨{ s with aborted := true }, none⟩
        | some true => ⟨s, none⟩
        | some false =>
          let requestId := clsigRequestId pindex.nHeight
          let msgHash := pindex.hash
          if pindex.nHeight ≤ s.bestChainLock.nHeight then ⟨s, none⟩
          else
            ⟨{ s with lastSignedHeight := pindex.nHeight
                      lastSignedRequestId := requestId
                      lastSignedMsgHash := msgHash },
              some (requestId, msgHash)⟩

/-- One serialized handler operation that writes the best-lock registry:
a ProcessNewChainLock call (carrying the environment snapshot, the caller
id, the CLSIG, its advertised hash and the external verification outcome),
the CheckActiveState reset, or an AcceptedBlockHeader delivery. The
scheduler runs these bodies one at a time, so a run is a list of
operations. -/
inductive HandlerOp
  | pnc (env : Env) (fromId : Int) (clsig : CChainLockSig) (hash : Hash)
      (verifyOk : Bool)
  | reset
  | acceptHeader (entry : BlockEntry)

/-- Apply one operation; a state whose aborted flag is set stays frozen
(the process has terminated). -/
def step (s : HandlerState) (op : HandlerOp) : HandlerState :=
  if s.aborted then s
  else
    match op with
    | .pnc env fromId clsig hash v =>
      (processNewChainLock env fromId clsig hash v s).state
    | .reset => checkActiveState s
    | .acceptHeader e => acceptedBlockHeader e s

/-- Whether the operation, applied at s, accepts a CLSIG, that is executes
the commit assignment bestChainLock = clsig of line 135. -/
def stepAccepts (s : HandlerState) (op : HandlerOp) : Bool :=
  if s.aborted then false
  else
    match op with
    | .pnc env fromId clsig hash v =>
      (processNewChainLock env fromId clsig hash v s).exit.isCommit
    | _ => false

/-- Run a list of handler operations from a state. -/
def runOps (s : HandlerState) (ops : List HandlerOp) : HandlerState :=
  ops.foldl step s

/-- The value of bestChainLock.nHeight observed after each operation of the
run, in order. -/
def runBestHeights : HandlerState → List HandlerOp → List Int
  | _, [] => []
  | s, op :: rest =>
    (step s op).bestChainLock.nHeight :: runBestHeights (step s op) rest

/-- Operation filter used by the amended monotonicity statements: the
operation is not a reset and, when it is a ProcessNewChainLock call, its
CLSIG carries a non-negative height (the source reuses height -1 as the
no-lock sentinel, so only non-negative heights are meaningful). -/
def HandlerOp.ok : HandlerOp → Bool
  | .pnc _ _ c _ _ => decide (0 ≤ c.nHeight)
  | .reset => false
  | .acceptHeader _ => true

/-- Operation filter for the amended C3 statement: a ProcessNewChainLock
call with a non-negative CLSIG height. -/
def HandlerOp.isPncNonneg : HandlerOp → Bool
  | .pnc _ _ c _ _ => decide (0 ≤ c.nHeight)
  | _ => false

/-- Operation filter for the amended C4 statement: ProcessNewChainLock calls
receive the canonical serialization hash of their CLSIG, as both call sites
of the source (ProcessMessage line 86 and HandleNewRecoveredSig line 488)
compute it. -/
def HandlerOp.hashCanonical : HandlerOp → Bool
  | .pnc _ _ c h _ => decide (h = serializeHashCLSig c)
  | _ => true

/-- A trivial environment for concrete evaluations: empty chain view. -/
def env0 : Env where
  nowMs := 0
  adjustedTime := 0
  fMasternodeMode := false
  isBlockchainSynced := true
  tip := none
  findBlock := fun _ => none
  getAncestor := fun _ _ => none
  getTransaction := fun _ => none

/-- A concrete block-index entry at height 5. -/
def wEntry : BlockEntry := ⟨5, 100, some 99⟩

/-- A handler state enforcing a lock whose block index entry is wEntry. -/
def sW : HandlerState :=
  { chainLocksInit true true with bestChainLockBlockIndex := some wEntry }

/-- A handler state whose seen-set already holds hash 42. -/
def st5 : HandlerState :=
  { chainLocksInit false false with seenChainLocks := [(42, 5)] }

/-- A concrete CLSIG used by witnesses. -/
def wclsig : CChainLockSig := ⟨4, 80, 9⟩

/-- Claim C8: IsTxSafeForMining returns true when the feature-gate is off;
otherwise it returns true iff the txid has a first-seen entry and its age
now - firstSeen is at least WAIT_FOR_ISLOCK_TIMEOUT; a txid with no
first-seen entry is reported unsafe. -/
theorem c8_isTxSafeForMining_spec (s : HandlerState) (now : Int) (txid : Hash) :
    isTxSafeForMining s now txid =
      if s.isSporkActive = false then true
      else
        match assocFind s.txFirstSeenTime txid with
        | some t => decide (WAIT_FOR_ISLOCK_TIMEOUT ≤ now - t)
        | none => false := by
  unfold isTxSafeForMining
  by_cases hsp : s.isSporkActive = false
  · simp [hsp]
  · simp only [hsp, if_false]
    cases hfind : assocFind s.txFirstSeenTime txid with
    | none => simp [WAIT_FOR_ISLOCK_TIMEOUT]
    | some t =>
      simp only []
      by_cases hlt : now - t < WAIT_FOR_ISLOCK_TIMEOUT
      · simp [hlt]
      · simp [hlt]
        omega

/-- Claim C10: in the initial state and after any CheckActiveState reset,
GetChainLockByHash succeeds exactly on the all-zero hash, returning the
sentinel CLSIG with height -1 and null block hash, and fails (leaving the
out parameter unchanged, modeled by none) on every other hash. -/
theorem c10_reset_query (spork enf : Bool) (prev s : HandlerState) (h : Hash)
    (hs : s = chainLocksInit spork enf ∨ s = checkActiveState prev)
    (hh : h ≠ 0) :
    getChainLockByHash s 0 = some defaultCLSig ∧
    getChainLockByHash s h = none ∧
    defaultCLSig.nHeight = -1 ∧ defaultCLSig.blockHash = 0 := by
  rcases hs with rfl | rfl <;>
    exact ⟨rfl, by simp [getChainLockByHash, chainLocksInit, checkActiveState, hh],
      rfl, rfl⟩

/-- Witness for c10_reset_query at the initial state and hash 1. -/
theorem c10_reset_query_witness :
    getChainLockByHash (chainLocksInit false false) 0 = some defaultCLSig ∧
    getChainLockByHash (chainLocksInit false false) 1 = none ∧
    defaultCLSig.nHeight = -1 ∧ defaultCLSig.blockHash = 0 :=
  c10_reset_query false false (chainLocksInit false false)
    (chainLocksInit false false) 1 (Or.inl rfl) (by decide)

/-- Claim C6: in any handler state, if HasChainLock(H, A) returns true then
HasConflictingChainLock(H, B) returns true for every B distinct from A. -/
theorem c6_conflict_safety (env : Env) (s : HandlerState) (H : Int)
    (A B : Hash) (hne : B ≠ A) (hlock : hasChainLock env s H A = true) :
    hasConflictingChainLock env s H B = some true := by
  unfold hasChainLock internalHasChainLock at hlock
  unfold hasConflictingChainLock internalHasConflictingChainLock
  by_cases he : s.isEnforced = false
  · simp [he] at hlock
  · simp only [he, if_false] at hlock ⊢
    cases hidx : s.bestChainLockBlockIndex with
    | none => simp [hidx] at hlock
    | some t =>
      simp only [hidx] at hlock ⊢
      by_cases h1 : t.nHeight < H
      · simp [h1] at hlock
      · simp only [h1, if_false] at hlock ⊢
        by_cases h2 : H = t.nHeight
        · simp only [h2, if_true] at hlock ⊢
          simp at hlock
          simp [hlock] at hne
          simp [hne]
        · simp only [h2, if_false] at hlock ⊢
          cases hanc : env.getAncestor t H with
          | none => simp [hanc] at hlock
          | some a =>
            simp only [hanc] at hlock ⊢
            have ha : a.hash = A := by simpa using hlock
            have hb : a.hash ≠ B := by
              rw [ha]
              exact fun hAB => hne hAB.symm
            simp [hb]

/-- Witness for c6_conflict_safety: sW pins height 5 to hash 100, so hash
101 conflicts there. -/
theorem c6_conflict_safety_witness :
    hasConflictingChainLock env0 sW 5 101 = some true :=
  c6_conflict_safety env0 sW 5 100 101 (by decide) (by decide)

/-- Claim C7: the case analysis of the two lock predicates. Both return a
negative answer when enforcement is disabled or no block-index entry is
bound, and when the queried height lies above the lock height; at the lock
height they compare the queried hash with the locked hash (the conflicting
variant negating the comparison); strictly below the lock height they
compare with the ancestor of the locked block at the queried height. -/
theorem c7_predicate_spec (env : Env) (s : HandlerState) (h : Int) (bh : Hash) :
    ((s.isEnforced = false ∨ s.bestChainLockBlockIndex = none) →
      internalHasChainLock env s h bh = false ∧
      internalHasConflictingChainLock env s h bh = some false) ∧
    (∀ t, s.isEnforced = true → s.bestChainLockBlockIndex = some t →
      (t.nHeight < h →
        internalHasChainLock env s h bh = false ∧
        internalHasConflictingChainLock env s h bh = some false) ∧
      (h = t.nHeight →
        internalHasChainLock env s h bh = decide (bh = t.hash) ∧
        internalHasConflictingChainLock env s h bh = some (decide (bh ≠ t.hash))) ∧
      (h < t.nHeight → ∀ a, env.getAncestor t h = some a →
        internalHasChainLock env s h bh = decide (a.hash = bh) ∧
        internalHasConflictingChainLock env s h bh = some (decide (a.hash ≠ bh)))) := by
  constructor
  · intro hdis
    unfold internalHasChainLock internalHasConflictingChainLock
    rcases hdis with he | hidx
    · simp [he]
    · by_cases he : s.isEnforced = false
      · simp [he]
      · simp [he, hidx]
  · intro t he hidx
    unfold internalHasChainLock internalHasConflictingChainLock
    refine ⟨?_, ?_, ?_⟩
    · intro hgt
      simp [he, hidx, hgt]
    · intro heq
      have h1 : ¬ t.nHeight < h := by omega
      simp [he, hidx, h1, heq]
    · intro hlt a hanc
      have h1 : ¬ t.nHeight < h := by omega
      have h2 : ¬ h = t.nHeight := by omega
      simp [he, hidx, h1, h2, hanc]

/-- Witness for c7_predicate_spec at the lock height of sW. -/
theorem c7_predicate_spec_witness :
    internalHasChainLock env0 sW 5 wEntry.hash =
      decide (wEntry.hash = wEntry.hash) ∧
    internalHasConflictingChainLock env0 sW 5 wEntry.hash =
      some (decide (wEntry.hash ≠ wEntry.hash)) :=
  ((c7_predicate_spec env0 sW 5 wEntry.hash).2 wEntry rfl rfl).2.1 rfl

/-- Claim C5: the first ProcessNewChainLock call for a hash inserts that
hash with the receipt time into the seen-set (on every exit path), and any
call whose hash is already in the seen-set returns at the dedup stage: the
state is fully unchanged, VerifyRecoveredSig is not invoked and nothing is
relayed, so signature verification runs at most once per hash while the
entry persists. -/
theorem c5_dedup (env : Env) (fromId : Int) (clsig : CChainLockSig)
    (hash : Hash) (v : Bool) (s : HandlerState) :
    (assocFind s.seenChainLocks hash = none →
      (processNewChainLock env fromId clsig hash v s).state.seenChainLocks =
        (hash, env.nowMs) :: s.seenChainLocks) ∧
    (∀ t0, assocFind s.seenChainLocks hash = some t0 →
      processNewChainLock env fromId clsig hash v s =
        ⟨s, .dedup, false, false, none⟩) := by
  constructor
  · intro hnone
    unfold processNewChainLock
    simp only [hnone, ne_eq, not_true_eq_false, not_false_eq_true, if_false,
      if_true, reduceIte]
    split
    · rfl
    · split
      · rfl
      · split
        · rfl
        · rfl
        · split
          · rfl
          · split
            · rfl
            · rfl
  · intro t0 hsome
    unfold processNewChainLock
    simp [hsome]

/-- Witness for c5_dedup: hash 42 is already in the seen-set of st5, so the
call is a no-op dedup return. -/
theorem c5_dedup_witness :
    processNewChainLock env0 0 wclsig 42 true st5 =
      ⟨st5, .dedup, false, false, none⟩ :=
  (c5_dedup env0 0 wclsig 42 true st5).2 5 (by decide)

/-- Claim C9: when signature verification fails, ProcessNewChainLock leaves
the whole best-lock registry unchanged, relays nothing, and reports
Misbehaving weight 10 exactly for peer-sourced CLSIGs (fromId at least 0;
the call sites pass either a non-negative peer id or -1 for a locally
assembled CLSIG). -/
theorem c9_invalid_sig (env : Env) (fromId : Int) (clsig : CChainLockSig)
    (hash : Hash) (s : HandlerState)
    (hseen : assocFind s.seenChainLocks hash = none)
    (hstale : ¬(s.bestChainLock.nHeight ≠ -1 ∧
      clsig.nHeight ≤ s.bestChainLock.nHeight))
    (hfrom : fromId = -1 ∨ 0 ≤ fromId) :
    (processNewChainLock env fromId clsig hash false s).state.bestChainLock
        = s.bestChainLock ∧
    (processNewChainLock env fromId clsig hash false s).state.bestChainLockHash
        = s.bestChainLockHash ∧
    (processNewChainLock env fromId clsig hash false s).state.bestChainLockWithKnownBlock
        = s.bestChainLockWithKnownBlock ∧
    (processNewChainLock env fromId clsig hash false s).state.bestChainLockBlockIndex
        = s.bestChainLockBlockIndex ∧
    (processNewChainLock env fromId clsig hash false s).relayed = false ∧
    (processNewChainLock env fromId clsig hash false s).misbehaved
        = (if 0 ≤ fromId then some (fromId, 10) else none) ∧
    (processNewChainLock env fromId clsig hash false s).exit = .invalidSig := by
  unfold processNewChainLock
  simp only [hseen, hstale, ne_eq, not_true_eq_false, not_false_eq_true,
    if_false, if_true, reduceIte]
  rcases hfrom with rfl | hpos
  · norm_num
  · have hne : fromId ≠ -1 := by omega
    simp [hne, hpos]

/-- Witness for c9_invalid_sig: a failing verification for peer 3. -/
theorem c9_invalid_sig_witness :
    (processNewChainLock env0 3 wclsig 800 false
      (chainLocksInit false false)).relayed = false :=
  (c9_invalid_sig env0 3 wclsig 800 (chainLocksInit false false) rfl
    (by decide) (Or.inr (by decide))).2.2.2.2.1

/-- Case analysis of ProcessNewChainLock used by the run-level proofs: at a
commit exit the call stores the given CLSIG and hash and the height filter
passed (no best yet, or a strictly larger height); at every other exit
bestChainLock and bestChainLockHash are untouched. -/
theorem pnc_cases (env : Env) (fromId : Int) (clsig : CChainLockSig)
    (hash : Hash) (v : Bool) (s : HandlerState) :
    ((processNewChainLock env fromId clsig hash v s).exit.isCommit = true →
      (processNewChainLock env fromId clsig hash v s).state.bestChainLock = clsig ∧
      (processNewChainLock env fromId clsig hash v s).state.bestChainLockHash = hash ∧
      (s.bestChainLock.nHeight = -1 ∨ s.bestChainLock.nHeight < clsig.nHeight)) ∧
    ((processNewChainLock env fromId clsig hash v s).exit.isCommit = false →
      (processNewChainLock env fromId clsig hash v s).state.bestChainLock = s.bestChainLock ∧
      (processNewChainLock env fromId clsig hash v s).state.bestChainLockHash = s.bestChainLockHash) := by
  simp only [processNewChainLock]
  by_cases hseen : assocFind s.seenChainLocks hash ≠ none
  · rw [if_pos hseen]
    simp [PncExit.isCommit]
  · rw [if_neg hseen]
    by_cases hstale : s.bestChainLock.nHeight ≠ -1 ∧
        clsig.nHeight ≤ s.bestChainLock.nHeight
    · rw [if_pos hstale]
      simp [PncExit.isCommit]
    · rw [if_neg hstale]
      have hd : s.bestChainLock.nHeight = -1 ∨
          s.bestChainLock.nHeight < clsig.nHeight := by
        rcases not_and_or.mp hstale with hm | hl
        · left
          simpa using hm
        · right
          omega
      by_cases hv : v = false
      · rw [if_pos hv]
        simp [PncExit.isCommit]
      · rw [if_neg hv]
        rw [show internalHasConflictingChainLock env
            { s with seenChainLocks := (hash, env.nowMs) :: s.seenChainLocks }
            clsig.nHeight clsig.blockHash =
          internalHasConflictingChainLock env s clsig.nHeight clsig.blockHash
          from rfl]
        cases hconf : internalHasConflictingChainLock env s clsig.nHeight
            clsig.blockHash with
        | none => simp [PncExit.isCommit]
        | some b =>
          cases b with
          | true => simp [PncExit.isCommit]
          | false =>
            cases hfb : env.findBlock clsig.blockHash with
            | none => simp [PncExit.isCommit, hd]
            | some e =>
              by_cases hbh : e.nHeight ≠ clsig.nHeight
              · simp [PncExit.isCommit, hd, hbh]
              · simp [PncExit.isCommit, hd, hbh]

/-- AcceptedBlockHeader never writes bestChainLock or bestChainLockHash. -/
theorem acceptedBlockHeader_best (e : BlockEntry) (s : HandlerState) :
    (acceptedBlockHeader e s).bestChainLock = s.bestChainLock ∧
    (acceptedBlockHeader e s).bestChainLockHash = s.bestChainLockHash := by
  unfold acceptedBlockHeader
  constructor <;>
  · split
    · split
      · rfl
      · rfl
    · rfl

/-- A commit observed through stepAccepts stores the CLSIG and implies the
height filter passed. -/
theorem stepAccepts_pnc (s : HandlerState) (env : Env) (fromId : Int)
    (clsig : CChainLockSig) (hash : Hash) (v : Bool)
    (h : stepAccepts s (.pnc env fromId clsig hash v) = true) :
    (step s (.pnc env fromId clsig hash v)).bestChainLock = clsig ∧
    (s.bestChainLock.nHeight = -1 ∨ s.bestChainLock.nHeight < clsig.nHeight) := by
  cases hab : s.aborted with
  | true =>
    simp [stepAccepts, hab] at h
  | false =>
    simp only [stepAccepts, hab, Bool.false_eq_true, if_false] at h
    simp only [step, hab, Bool.false_eq_true, if_false]
    have hc := (pnc_cases env fromId clsig hash v s).1 h
    exact ⟨hc.1, hc.2.2⟩

/-- One ok operation (no reset, non-negative CLSIG heights) never lowers
bestChainLock.nHeight, and keeps it at or above the -1 sentinel. -/
theorem step_best_mono (s : HandlerState) (op : HandlerOp)
    (hok : op.ok = true) (hlb : -1 ≤ s.bestChainLock.nHeight) :
    s.bestChainLock.nHeight ≤ (step s op).bestChainLock.nHeight ∧
    -1 ≤ (step s op).bestChainLock.nHeight := by
  cases hab : s.aborted with
  | true =>
    simp [step, hab]
    omega
  | false =>
    cases op with
    | pnc env f c h v =>
      have hc : 0 ≤ c.nHeight := by simpa [HandlerOp.ok] using hok
      simp only [step, hab, Bool.false_eq_true, if_false]
      cases hcom : (processNewChainLock env f c h v s).exit.isCommit with
      | false =>
        rw [((pnc_cases env f c h v s).2 hcom).1]
        exact ⟨le_refl _, hlb⟩
      | true =>
        have hcomm := (pnc_cases env f c h v s).1 hcom
        rw [hcomm.1]
        rcases hcomm.2.2 with hm | hl
        · constructor <;> omega
        · constructor <;> omega
    | reset => simp [HandlerOp.ok] at hok
    | acceptHeader e =>
      simp only [step, hab, Bool.false_eq_true, if_false]
      rw [(acceptedBlockHeader_best e s).1]
      exact ⟨le_refl _, hlb⟩

/-- Splitting a run at an append. -/
theorem runOps_append (s : HandlerState) (ops1 ops2 : List HandlerOp) :
    runOps s (ops1 ++ ops2) = runOps (runOps s ops1) ops2 := by
  simp [runOps, List.foldl_append]

/-- Over a run of ok operations, bestChainLock.nHeight never decreases and
stays at or above -1. -/
theorem runOps_best_mono (ops : List HandlerOp) (s : HandlerState)
    (hok : ops.all HandlerOp.ok = true) (hlb : -1 ≤ s.bestChainLock.nHeight) :
    s.bestChainLock.nHeight ≤ (runOps s ops).bestChainLock.nHeight ∧
    -1 ≤ (runOps s ops).bestChainLock.nHeight := by
  induction ops generalizing s with
  | nil => exact ⟨le_refl _, hlb⟩
  | cons op rest ih =>
    simp only [List.all_cons, Bool.and_eq_true] at hok
    have h1 := step_best_mono s op hok.1 hlb
    have h2 := ih (step s op) hok.2 h1.2
    exact ⟨le_trans h1.1 h2.1, h2.2⟩

/-- The observed best heights of a run of ok operations form a chain of the
order relation starting from the current height. -/
theorem chain_runBestHeights (ops : List HandlerOp) (s : HandlerState)
    (hok : ops.all HandlerOp.ok = true) (hlb : -1 ≤ s.bestChainLock.nHeight) :
    List.Chain (fun a b : Int => a ≤ b) s.bestChainLock.nHeight
      (runBestHeights s ops) := by
  induction ops generalizing s with
  | nil => exact List.Chain.nil
  | cons op rest ih =>
    simp only [List.all_cons, Bool.and_eq_true] at hok
    have h1 := step_best_mono s op hok.1 hlb
    exact List.Chain.cons h1.1 (ih (step s op) hok.2 h1.2)

/-- Claim C2, counterexample to the statement as given: a CLSIG at height 5
is accepted, an intervening CheckActiveState run resets the registry, and a
CLSIG at height 3, a height not above 5, is accepted afterwards. -/
def c2clsig1 : CChainLockSig := ⟨5, 60, 1⟩

/-- Second CLSIG of the C2 counterexample, carrying the lower height 3. -/
def c2clsig2 : CChainLockSig := ⟨3, 61, 2⟩

/-- First operation of the C2 counterexample. -/
def c2op1 : HandlerOp := .pnc env0 0 c2clsig1 600 true

/-- Third operation of the C2 counterexample. -/
def c2op2 : HandlerOp := .pnc env0 0 c2clsig2 601 true

/-- Claim C2 as stated is false on the code: after a CLSIG at height 5 is
accepted, a CheckActiveState run (unconditional in the shown source, where
the feature-gate check is an open TODO) resets the registry, and a CLSIG at
height 3 is accepted by a later ProcessNewChainLock call. -/
theorem c2_counterexample_reset_reaccepts_lower :
    stepAccepts (chainLocksInit false false) c2op1 = true ∧
    stepAccepts (runOps (chainLocksInit false false) [c2op1, .reset]) c2op2 = true ∧
    c2clsig2.nHeight ≤ c2clsig1.nHeight := by
  refine ⟨by decide, by decide, by decide⟩

/-- Claim C2, amended: across any run of registry-writing handler
operations that contains no CheckActiveState reset and whose
ProcessNewChainLock calls all carry non-negative CLSIG heights, once a CLSIG
is accepted (committed as bestChainLock), every CLSIG accepted by a later
call has a strictly greater height. -/
theorem c2_amended_monotone_acceptance (spork enf : Bool)
    (pre mid : List HandlerOp) (e1 e2 : Env) (f1 f2 : Int)
    (c1 c2 : CChainLockSig) (h1 h2 : Hash) (v1 v2 : Bool)
    (hok : (pre ++ [HandlerOp.pnc e1 f1 c1 h1 v1] ++ mid ++
      [HandlerOp.pnc e2 f2 c2 h2 v2]).all HandlerOp.ok = true)
    (hacc1 : stepAccepts (runOps (chainLocksInit spork enf) pre)
      (.pnc e1 f1 c1 h1 v1) = true)
    (hacc2 : stepAccepts (runOps (chainLocksInit spork enf)
      (pre ++ [.pnc e1 f1 c1 h1 v1] ++ mid)) (.pnc e2 f2 c2 h2 v2) = true) :
    c1.nHeight < c2.nHeight := by
  rw [List.all_eq_true] at hok
  have hc1 : 0 ≤ c1.nHeight := by
    have h := hok (.pnc e1 f1 c1 h1 v1) (by simp)
    simpa [HandlerOp.ok] using h
  have hmid : mid.all HandlerOp.ok = true := by
    rw [List.all_eq_true]
    intro op hop
    exact hok op (by simp [List.mem_append, hop])
  have hstep1 := stepAccepts_pnc (runOps (chainLocksInit spork enf) pre)
    e1 f1 c1 h1 v1 hacc1
  have hrun : runOps (chainLocksInit spork enf) (pre ++ [.pnc e1 f1 c1 h1 v1] ++ mid)
      = runOps (step (runOps (chainLocksInit spork enf) pre) (.pnc e1 f1 c1 h1 v1)) mid := by
    rw [runOps_append, runOps_append]
    rfl
  have hmono := runOps_best_mono mid
    (step (runOps (chainLocksInit spork enf) pre) (.pnc e1 f1 c1 h1 v1)) hmid
    (by rw [hstep1.1]; omega)
  have hstep2 := stepAccepts_pnc
    (runOps (chainLocksInit spork enf) (pre ++ [.pnc e1 f1 c1 h1 v1] ++ mid))
    e2 f2 c2 h2 v2 hacc2
  rw [hrun] at hstep2
  rw [hstep1.1] at hmono
  rcases hstep2.2 with hm | hl
  · omega
  · omega

/-- Witness for c2_amended_monotone_acceptance: height 5 accepted, then
height 7 accepted, with no reset in between. -/
theorem c2_amended_witness :
    c2clsig1.nHeight < (⟨7, 62, 3⟩ : CChainLockSig).nHeight :=
  c2_amended_monotone_acceptance false false [] [] env0 env0 0 0
    c2clsig1 ⟨7, 62, 3⟩ 600 602 true true (by decide) (by decide) (by decide)

/-- Operations of the C3 counterexample: a CLSIG carrying the sentinel
height -1 is accepted, after which the height filter is disabled and a CLSIG
at height -7 is accepted, so the observed best height decreases. -/
def c3ops : List HandlerOp :=
  [.pnc env0 0 ⟨-1, 50, 1⟩ 500 true, .pnc env0 0 ⟨-7, 51, 2⟩ 501 true]

/-- Claim C3 as stated is false on the code: over a sequence of two
ProcessNewChainLock calls the observed bestChainLock.nHeight values are -1
then -7, which is decreasing; the height filter treats a best height of -1
as no lock at all, so a CLSIG carrying height -1 re-opens the registry. -/
theorem c3_counterexample_sentinel_height :
    runBestHeights (chainLocksInit false false) c3ops = [-1, -7] ∧
    ¬ List.Chain' (fun a b : Int => a ≤ b)
      (runBestHeights (chainLocksInit false false) c3ops) := by
  refine ⟨by decide, ?_⟩
  intro hch
  have : runBestHeights (chainLocksInit false false) c3ops = [-1, -7] := by decide
  rw [this] at hch
  rcases List.chain'_cons.mp hch with ⟨hle, -⟩
  omega

/-- Claim C3, amended: for any sequence of ProcessNewChainLock calls whose
CLSIGs all carry non-negative heights (block heights are non-negative; -1 is
the no-lock sentinel), the value of bestChainLock.nHeight observed after
each call is non-decreasing over the sequence. -/
theorem c3_amended_heights_monotone (spork enf : Bool)
    (ops : List HandlerOp) (hok : ops.all HandlerOp.isPncNonneg = true) :
    List.Chain' (fun a b : Int => a ≤ b)
      (runBestHeights (chainLocksInit spork enf) ops) := by
  have hok2 : ops.all HandlerOp.ok = true := by
    rw [List.all_eq_true] at hok ⊢
    intro op hop
    have h := hok op hop
    cases op with
    | pnc env f c h v => simpa [HandlerOp.ok, HandlerOp.isPncNonneg] using h
    | reset => simp [HandlerOp.isPncNonneg] at h
    | acceptHeader e => simp [HandlerOp.ok]
  have hch := chain_runBestHeights ops (chainLocksInit spork enf) hok2
    (by simp [chainLocksInit, defaultCLSig])
  cases hl : runBestHeights (chainLocksInit spork enf) ops with
  | nil => simp [List.Chain']
  | cons b l =>
    rw [hl] at hch
    exact (List.chain_cons.mp hch).2

/-- Witness for c3_amended_heights_monotone on a one-call run. -/
theorem c3_amended_witness :
    List.Chain' (fun a b : Int => a ≤ b)
      (runBestHeights (chainLocksInit false false)
        [.pnc env0 0 ⟨2, 70, 1⟩ 700 true]) :=
  c3_amended_heights_monotone false false [.pnc env0 0 ⟨2, 70, 1⟩ 700 true]
    (by decide)

/-- Claim C4 as stated is false on the code: in the initial state (equally,
after any CheckActiveState reset) bestChainLockHash is the all-zero word
while bestChainLock is the default sentinel CLSIG, whose canonical
serialization hash is not the all-zero word. -/
theorem c4_counterexample_initial_hash_mismatch :
    (chainLocksInit false false).bestChainLockHash ≠
      serializeHashCLSig (chainLocksInit false false).bestChainLock := by
  decide

/-- One operation preserves the amended C4 invariant: either
bestChainLockHash is the canonical hash of bestChainLock, or the registry is
in its reset configuration (zero hash and sentinel CLSIG). -/
theorem step_hash_inv (s : HandlerState) (op : HandlerOp)
    (hok : op.hashCanonical = true)
    (hinv : s.bestChainLockHash = serializeHashCLSig s.bestChainLock ∨
      (s.bestChainLockHash = 0 ∧ s.bestChainLock = defaultCLSig)) :
    (step s op).bestChainLockHash = serializeHashCLSig (step s op).bestChainLock ∨
    ((step s op).bestChainLockHash = 0 ∧ (step s op).bestChainLock = defaultCLSig) := by
  cases hab : s.aborted with
  | true =>
    simp only [step, hab, if_true]
    exact hinv
  | false =>
    cases op with
    | pnc env f c h v =>
      have hcanon : h = serializeHashCLSig c := by
        simpa [HandlerOp.hashCanonical] using hok
      simp only [step, hab, Bool.false_eq_true, if_false]
      cases hcom : (processNewChainLock env f c h v s).exit.isCommit with
      | false =>
        have hp := (pnc_cases env f c h v s).2 hcom
        rw [hp.1, hp.2]
        exact hinv
      | true =>
        have hp := (pnc_cases env f c h v s).1 hcom
        rw [hp.1, hp.2.1]
        left
        exact hcanon
    | reset =>
      simp only [step, hab, Bool.false_eq_true, if_false]
      right
      exact ⟨rfl, rfl⟩
    | acceptHeader e =>
      simp only [step, hab, Bool.false_eq_true, if_false]
      have hp := acceptedBlockHeader_best e s
      rw [hp.1, hp.2]
      exact hinv

/-- Claim C4, amended: at every state reachable by handler operations whose
ProcessNewChainLock calls receive the canonical hash of their CLSIG (as both
call sites in the source do), either bestChainLockHash is the canonical
serialization hash of bestChainLock, or the registry is in the reset
configuration, where bestChainLockHash is the all-zero word and
bestChainLock the sentinel; the claim as stated fails only on the reset
configuration. -/
theorem c4_amended_hash_correspondence (spork enf : Bool)
    (ops : List HandlerOp) (hok : ops.all HandlerOp.hashCanonical = true) :
    (runOps (chainLocksInit spork enf) ops).bestChainLockHash =
      serializeHashCLSig (runOps (chainLocksInit spork enf) ops).bestChainLock ∨
    ((runOps (chainLocksInit spork enf) ops).bestChainLockHash = 0 ∧
      (runOps (chainLocksInit spork enf) ops).bestChainLock = defaultCLSig) := by
  suffices h : ∀ (l : List HandlerOp) (s : HandlerState),
      l.all HandlerOp.hashCanonical = true →
      (s.bestChainLockHash = serializeHashCLSig s.bestChainLock ∨
        (s.bestChainLockHash = 0 ∧ s.bestChainLock = defaultCLSig)) →
      ((runOps s l).bestChainLockHash = serializeHashCLSig (runOps s l).bestChainLock ∨
        ((runOps s l).bestChainLockHash = 0 ∧ (runOps s l).bestChainLock = defaultCLSig)) by
    exact h ops (chainLocksInit spork enf) hok (Or.inr ⟨rfl, rfl⟩)
  intro l
  induction l with
  | nil => intro s _ hinv; exact hinv
  | cons op rest ih =>
    intro s hok2 hinv
    simp only [List.all_cons, Bool.and_eq_true] at hok2
    exact ih (step s op) hok2.2 (step_hash_inv s op hok2.1 hinv)

/-- Operations of the C4 witness run: one canonical-hash commit. -/
def c4ops : List HandlerOp :=
  [.pnc env0 0 wclsig (serializeHashCLSig wclsig) true]

/-- Witness for c4_amended_hash_correspondence after one commit. -/
theorem c4_amended_witness :
    (runOps (chainLocksInit false false) c4ops).bestChainLockHash =
      serializeHashCLSig (runOps (chainLocksInit false false) c4ops).bestChainLock ∨
    ((runOps (chainLocksInit false false) c4ops).bestChainLockHash = 0 ∧
      (runOps (chainLocksInit false false) c4ops).bestChainLock = defaultCLSig) :=
  c4_amended_hash_correspondence false false c4ops (by decide)

/-- The active-chain tip of the C1 scenario, at height 10. -/
def c1Tip : BlockEntry := ⟨10, 1000, some 999⟩

/-- Environment of the C1 scenario: a masternode with a synced blockchain
whose tip is c1Tip. -/
def c1Env : Env where
  nowMs := 0
  adjustedTime := 1000
  fMasternodeMode := true
  isBlockchainSynced := true
  tip := some c1Tip
  findBlock := fun h => if h = 1000 then some c1Tip else none
  getAncestor := fun _ _ => none
  getTransaction := fun _ => none

/-- Handler state of the C1 scenario: feature-gate active, the block-tx
tracker holds exactly one non-coinbase txid (77) for the tip block, and
txFirstSeenTime is empty, so txid 77 was never first-seen and is unsafe. -/
def c1State : HandlerState :=
  { chainLocksInit true true with blockTxs := [(c1Tip.hash, [77])] }

/-- Claim C1: the shown TrySignChainTip proposes the tip for signing without
consulting the block-tx tracker. In the C1 scenario the tip block contains
the non-coinbase txid 77, IsTxSafeForMining reports it unsafe (it has no
first-seen entry), and yet the signer records the signed height and hands
the request id and message hash of the tip to AsyncSignIfMember. The claim
and the spec require that no signing attempt be made for this tip. -/
theorem c1_sign_despite_unsafe_tx :
    assocFind c1State.blockTxs c1Tip.hash = some [77] ∧
    isTxSafeForMining c1State c1Env.adjustedTime 77 = false ∧
    (trySignChainTip c1Env c1State).asyncSign =
      some (clsigRequestId c1Tip.nHeight, c1Tip.hash) ∧
    (trySignChainTip c1Env c1State).state.lastSignedHeight = c1Tip.nHeight := by
  refine ⟨by decide, by decide, by decide, by decide⟩

end ChainLocks
